import Mathlib

/-!
Shallow embedding of `server/events/repoconfig/reader.go` (package `repoconfig`)
of the Wolfsrudel/atlantis repository, together with proofs about its
configuration validation and stage-resolution behaviour.

External collaborators (filesystem, YAML deserializer, logger, terraform
executor, resolved tool version) are modelled as opaque values or as explicit
parameters, following the package's own treatment of them: the code never
inspects them, it only threads them through.
-/

set_option autoImplicit false

namespace RepoconfigSpec

/-- Constant `AtlantisYAMLFilename = "atlantis.yaml"` from reader.go. -/
def AtlantisYAMLFilename : String := "atlantis.yaml"

/-- Constant `PlanStageName = "plan"` from reader.go. -/
def PlanStageName : String := "plan"

/-- Constant `ApplyStageName = "apply"` from reader.go. -/
def ApplyStageName : String := "apply"

/-- One declared step of a stage (`StepConfig`): a `step_type` tag and
`extra_args`.  A Go `nil` slice of strings is modelled as `[]`. -/
structure StepConfig where
  StepType : String
  ExtraArgs : List String
deriving DecidableEq, Repr

/-- One stage of a workflow (`StageConfig`): its ordered `steps`. -/
structure StageConfig where
  Steps : List StepConfig
deriving DecidableEq, Repr

/-- One named workflow (`WorkflowConfig`): a `plan` stage and an `apply`
stage. -/
structure WorkflowConfig where
  Plan : StageConfig
  Apply : StageConfig
deriving DecidableEq, Repr

/-- One declared project binding (`ProjectConfig`): `dir`, `workspace`,
`workflow`. -/
structure ProjectConfig where
  Dir : String
  Workspace : String
  Workflow : String
deriving DecidableEq, Repr

/-- The root configuration value (`RepoConfig`).  The Go field `Workflows` is
a `map[string]WorkflowConfig`; it is modelled as an association list with
lookup by key (Go map keys are unique, so first-key lookup is faithful). -/
structure RepoConfig where
  Version : Int
  Projects : List ProjectConfig
  Workflows : List (String × WorkflowConfig)
deriving DecidableEq, Repr

/-- Immutable execution context attached to every resolved step (`StepMeta`).
The logger pointer and the terraform-executor capability are opaque to this
package, modelled as plain strings; the `*version.Version` pointer, possibly
nil, is modelled as `Option String`. -/
structure StepMeta where
  Log : String
  Workspace : String
  AbsolutePath : String
  DirRelativeToRepoRoot : String
  TerraformVersion : Option String
  TerraformExecutor : String
  ExtraCommentArgs : List String
  Username : String
deriving DecidableEq, Repr

/-- Resolved runtime step.  In Go these are the three structs `InitStep`,
`PlanStep`, `ApplyStep`, each implementing the `Step` interface and carrying
a shared `StepMeta` plus its own `ExtraArgs`. -/
inductive Step where
  | InitStep (Meta : StepMeta) (ExtraArgs : List String)
  | PlanStep (Meta : StepMeta) (ExtraArgs : List String)
  | ApplyStep (Meta : StepMeta) (ExtraArgs : List String)
deriving DecidableEq, Repr

/-- The `Meta` field shared by all three step variants. -/
def Step.meta : Step → StepMeta
  | .InitStep m _ => m
  | .PlanStep m _ => m
  | .ApplyStep m _ => m

/-- The `ExtraArgs` field shared by all three step variants. -/
def Step.extraArgs : Step → List String
  | .InitStep _ a => a
  | .PlanStep _ a => a
  | .ApplyStep _ a => a

/-- Result wrapper `PlanStage` (declared elsewhere in the package; reader.go
constructs it as `&PlanStage{Steps: steps}`).  A Go `[]Step` holds interface
values which may each be nil, hence `List (Option Step)`. -/
structure PlanStage where
  Steps : List (Option Step)
deriving DecidableEq, Repr

/-- Result wrapper `ApplyStage` (declared elsewhere in the package; reader.go
constructs it as `&ApplyStage{Steps: steps}`). -/
structure ApplyStage where
  Steps : List (Option Step)
deriving DecidableEq, Repr

/-- The `Reader` receiver: an opaque terraform-executor capability and the
default (possibly nil) terraform version. -/
structure Reader where
  TerraformExecutor : String
  DefaultTFVersion : Option String
deriving DecidableEq, Repr

/-- Model of Go `path/filepath.Join` on two components, for the clean,
separator-free path components this package joins (`Clean` is the identity
on them). -/
def filepathJoin (elem1 elem2 : String) : String :=
  if elem1 = "" then elem2
  else if elem2 = "" then elem1
  else elem1 ++ "/" ++ elem2

/-- Model of the `fmt` verb `%q` on strings containing no characters that
need escaping (the only inputs the proofs evaluate it on). -/
def quoteGo (s : String) : String := "\"" ++ s ++ "\""

/-- Outcome of the `ioutil.ReadFile` call in `ReadConfig`, keyed by the file
path.  File bytes are opaque to this package except through
`yaml.UnmarshalStrict`, so `contents` carries directly the unmarshal result
the YAML library would produce for those bytes: either a sanitizable error
message or a filled `RepoConfig`. -/
inductive FileState where
  | notExist
  | readErr (msg : String)
  | contents (unmarshal : Except String RepoConfig)
deriving Repr

/-- The indexed loop over `repoConfig.Projects` at the end of
`ParseAndValidate`: returns the error for the first project whose `Dir` is
empty, if any. -/
def validateProjectDirs : Nat → List ProjectConfig → Option String
  | _, [] => none
  | i, project :: rest =>
    if project.Dir = "" then
      some ("project at index " ++ toString i ++
        " invalid: dir key must be set and non-empty")
    else validateProjectDirs (i + 1) rest

/-- `Reader.ParseAndValidate` from reader.go.  The `yaml.UnmarshalStrict`
call is external; its outcome on the input bytes is the argument.  On an
unmarshal error the Go code strips the substring
`" into repoconfig.RepoConfig"` from the message before returning it. -/
def Reader.ParseAndValidate (_ : Reader) (unmarshalResult : Except String RepoConfig) :
    Except String RepoConfig :=
  match unmarshalResult with
  | .error e => .error (e.replace " into repoconfig.RepoConfig" "")
  | .ok repoConfig =>
    if repoConfig.Version ≠ 2 then
      .error "unknown version: must have \"version: 2\" set"
    else if repoConfig.Projects.length = 0 then
      .error "'projects' key must exist and contain at least one element"
    else
      match validateProjectDirs 0 repoConfig.Projects with
      | some e => .error e
      | none => .ok repoConfig

/-- `Reader.ReadConfig` from reader.go.  `fs` models the filesystem: the
outcome of `ioutil.ReadFile` at each path.  Returns `.ok none` when the file
does not exist (the Go `nil, nil` result). -/
def Reader.ReadConfig (r : Reader) (fs : String → FileState) (repoDir : String) :
    Except String (Option RepoConfig) :=
  let configFile := filepathJoin repoDir AtlantisYAMLFilename
  match fs configFile with
  | .notExist => .ok none
  | .readErr e => .error ("unable to read " ++ AtlantisYAMLFilename ++ " file: " ++ e)
  | .contents data =>
    match r.ParseAndValidate data with
    | .error e => .error ("parsing " ++ AtlantisYAMLFilename ++ ": " ++ e)
    | .ok config => .ok (some config)

/-- `Reader.buildMeta` from reader.go: the one shared `StepMeta` for a
resolution call. -/
def Reader.buildMeta (r : Reader) (log repoDir workspace relProjectPath : String)
    (extraCommentArgs : List String) (username : String) : StepMeta :=
  { Log := log
    Workspace := workspace
    AbsolutePath := filepathJoin repoDir relProjectPath
    DirRelativeToRepoRoot := relProjectPath
    TerraformVersion := r.DefaultTFVersion
    TerraformExecutor := r.TerraformExecutor
    ExtraCommentArgs := extraCommentArgs
    Username := username }

/-- The `switch stepConfig.StepType` inside `BuildStage`'s step loop.  The
switch has no default case, so an unrecognized tag leaves the `Step`
interface variable at its zero value, nil (`none`); the append after the
switch runs either way. -/
def stepFromConfig (meta : StepMeta) (stepConfig : StepConfig) : Option Step :=
  if stepConfig.StepType = "init" then
    some (.InitStep meta stepConfig.ExtraArgs)
  else if stepConfig.StepType = "plan" then
    some (.PlanStep meta stepConfig.ExtraArgs)
  else if stepConfig.StepType = "apply" then
    some (.ApplyStep meta stepConfig.ExtraArgs)
  else
    none

/-- The `for _, p := range config.Projects` loop inside `BuildStage`:
scans for the first project whose `(Dir, Workspace)` equals the request,
then either falls back to the defaults (empty workflow), fails on a missing
workflow key, or expands the requested stage's steps.  Falling off the loop
yields the no-project error. -/
def BuildStageScan (r : Reader) (stageName log repoDir workspace relProjectPath : String)
    (extraCommentArgs : List String) (username : String) (defaults : List (Option Step))
    (workflows : List (String × WorkflowConfig)) :
    List ProjectConfig → Except String (List (Option Step))
  | [] =>
    .error ("no project with dir " ++ quoteGo relProjectPath ++ " and workspace " ++
      quoteGo workspace ++ " defined")
  | p :: rest =>
    if p.Dir = relProjectPath ∧ p.Workspace = workspace then
      let workflowName := p.Workflow
      if workflowName = "" then
        .ok defaults
      else
        match workflows.lookup workflowName with
        | none => .error ("no workflow with key " ++ quoteGo workflowName ++ " defined")
        | some workflow =>
          let meta := r.buildMeta log repoDir workspace relProjectPath extraCommentArgs username
          let stepsConfig :=
            if stageName = PlanStageName then workflow.Plan.Steps else workflow.Apply.Steps
          .ok (stepsConfig.map (stepFromConfig meta))
    else
      BuildStageScan r stageName log repoDir workspace relProjectPath extraCommentArgs
        username defaults workflows rest

/-- `Reader.BuildStage` from reader.go: read the config, fall back to the
supplied defaults when no file exists, otherwise resolve via the project
scan. -/
def Reader.BuildStage (r : Reader) (stageName : String) (fs : String → FileState)
    (log repoDir workspace relProjectPath : String) (extraCommentArgs : List String)
    (username : String) (defaults : List (Option Step)) :
    Except String (List (Option Step)) :=
  match r.ReadConfig fs repoDir with
  | .error e => .error e
  | .ok none => .ok defaults
  | .ok (some config) =>
    BuildStageScan r stageName log repoDir workspace relProjectPath extraCommentArgs
      username defaults config.Workflows config.Projects

/-- `Reader.defaultPlanSteps` from reader.go: `[Init(nil args), Plan(nil
args)]` over the shared meta. -/
def Reader.defaultPlanSteps (r : Reader) (log repoDir workspace relProjectPath : String)
    (extraCommentArgs : List String) (username : String) : List (Option Step) :=
  let meta := r.buildMeta log repoDir workspace relProjectPath extraCommentArgs username
  [some (.InitStep meta []), some (.PlanStep meta [])]

/-- `Reader.defaultApplySteps` from reader.go: `[Apply(nil args)]` over the
shared meta. -/
def Reader.defaultApplySteps (r : Reader) (log repoDir workspace relProjectPath : String)
    (extraCommentArgs : List String) (username : String) : List (Option Step) :=
  let meta := r.buildMeta log repoDir workspace relProjectPath extraCommentArgs username
  [some (.ApplyStep meta [])]

/-- `Reader.BuildPlanStage` from reader.go. -/
def Reader.BuildPlanStage (r : Reader) (fs : String → FileState)
    (log repoDir workspace relProjectPath : String) (extraCommentArgs : List String)
    (username : String) : Except String PlanStage :=
  let defaults := r.defaultPlanSteps log repoDir workspace relProjectPath extraCommentArgs username
  match r.BuildStage PlanStageName fs log repoDir workspace relProjectPath extraCommentArgs
      username defaults with
  | .error e => .error e
  | .ok steps => .ok { Steps := steps }

/-- `Reader.BuildApplyStage` from reader.go. -/
def Reader.BuildApplyStage (r : Reader) (fs : String → FileState)
    (log repoDir workspace relProjectPath : String) (extraCommentArgs : List String)
    (username : String) : Except String ApplyStage :=
  let defaults := r.defaultApplySteps log repoDir workspace relProjectPath extraCommentArgs username
  match r.BuildStage ApplyStageName fs log repoDir workspace relProjectPath extraCommentArgs
      username defaults with
  | .error e => .error e
  | .ok steps => .ok { Steps := steps }

/-! ### Helper lemmas -/

/-- A project list all of whose entries have non-empty `Dir` passes the
indexed dir check. -/
theorem validateProjectDirs_none (n : Nat) (l : List ProjectConfig)
    (h : ∀ q ∈ l, q.Dir ≠ "") : validateProjectDirs n l = none := by
  induction l generalizing n with
  | nil => rfl
  | cons q rest ih =>
    have hq : q.Dir ≠ "" := h q (by simp)
    simp only [validateProjectDirs, if_neg hq]
    exact ih (n + 1) fun q hq => h q (by simp [hq])

/-- The indexed dir check reports the first entry with empty `Dir`, at its
index. -/
theorem validateProjectDirs_first (n : Nat) (pre : List ProjectConfig)
    (p : ProjectConfig) (post : List ProjectConfig)
    (hpre : ∀ q ∈ pre, q.Dir ≠ "") (hp : p.Dir = "") :
    validateProjectDirs n (pre ++ p :: post) =
      some ("project at index " ++ toString (n + pre.length) ++
        " invalid: dir key must be set and non-empty") := by
  induction pre generalizing n with
  | nil => simp [validateProjectDirs, hp]
  | cons q pre ih =>
    have hq : q.Dir ≠ "" := hpre q (by simp)
    have harith : (n + 1) + pre.length = n + (q :: pre).length := by
      simp only [List.length_cons]
      omega
    simp only [List.cons_append, validateProjectDirs, if_neg hq, List.append_eq]
    rw [ih (n + 1) (fun q hq => hpre q (by simp [hq])), harith]

/-- The project scan skips over entries that do not match the requested
`(dir, workspace)` pair. -/
theorem buildStageScan_skip (r : Reader)
    (stageName log repoDir workspace relProjectPath : String)
    (extraCommentArgs : List String) (username : String)
    (defaults : List (Option Step)) (workflows : List (String × WorkflowConfig))
    (pre rest : List ProjectConfig)
    (hpre : ∀ q ∈ pre, ¬(q.Dir = relProjectPath ∧ q.Workspace = workspace)) :
    BuildStageScan r stageName log repoDir workspace relProjectPath extraCommentArgs
        username defaults workflows (pre ++ rest) =
      BuildStageScan r stageName log repoDir workspace relProjectPath extraCommentArgs
        username defaults workflows rest := by
  induction pre with
  | nil => rfl
  | cons q pre ih =>
    have hq := hpre q (by simp)
    simp only [List.cons_append, BuildStageScan, if_neg hq]
    exact ih fun q hq => hpre q (by simp [hq])

/-- The project scan falls off the end of a match-free list with the
no-project error. -/
theorem buildStageScan_no_match (r : Reader)
    (stageName log repoDir workspace relProjectPath : String)
    (extraCommentArgs : List String) (username : String)
    (defaults : List (Option Step)) (workflows : List (String × WorkflowConfig))
    (l : List ProjectConfig)
    (hl : ∀ q ∈ l, ¬(q.Dir = relProjectPath ∧ q.Workspace = workspace)) :
    BuildStageScan r stageName log repoDir workspace relProjectPath extraCommentArgs
        username defaults workflows l =
      .error ("no project with dir " ++ quoteGo relProjectPath ++ " and workspace " ++
        quoteGo workspace ++ " defined") := by
  have h := buildStageScan_skip r stageName log repoDir workspace relProjectPath
    extraCommentArgs username defaults workflows l [] hl
  rw [List.append_nil] at h
  rw [h]
  rfl

/-- Whatever step the per-entry switch produces carries the meta it was
given. -/
theorem stepFromConfig_meta (m : StepMeta) (sc : StepConfig) (s : Step)
    (h : stepFromConfig m sc = some s) : s.meta = m := by
  unfold stepFromConfig at h
  split at h
  · cases h; rfl
  · split at h
    · cases h; rfl
    · split at h
      · cases h; rfl
      · cases h

/-! ### Claims -/

/-- C3: for every successfully deserialized configuration whose `Version` is
not 2, `ParseAndValidate` fails with exactly the message
`unknown version: must have "version: 2" set`, regardless of the rest of the
configuration. -/
theorem c3_wrong_version_error (r : Reader) (cfg : RepoConfig)
    (h : cfg.Version ≠ 2) :
    r.ParseAndValidate (.ok cfg) =
      .error "unknown version: must have \"version: 2\" set" := by
  simp [Reader.ParseAndValidate, h]

/-- Witness for C3 at version 3 with otherwise-valid content. -/
theorem c3_wrong_version_error_witness :
    (RepoConfig.mk 3 [⟨"proj", "default", ""⟩] []).Version ≠ 2 ∧
    (Reader.mk "tf" none).ParseAndValidate (.ok ⟨3, [⟨"proj", "default", ""⟩], []⟩) =
      .error "unknown version: must have \"version: 2\" set" :=
  ⟨by decide, c3_wrong_version_error ⟨"tf", none⟩ ⟨3, [⟨"proj", "default", ""⟩], []⟩ (by decide)⟩

/-- C4: with the version check passed, structural validation returns on the
first failure: an empty project list yields the projects message; a list whose
first empty-`Dir` entry sits at index `pre.length` yields the message naming
exactly that index; a list with all dirs non-empty validates successfully. -/
theorem c4_validation_order (r : Reader) (cfg : RepoConfig)
    (h2 : cfg.Version = 2) :
    (cfg.Projects = [] →
      r.ParseAndValidate (.ok cfg) =
        .error "'projects' key must exist and contain at least one element") ∧
    (∀ pre p post, cfg.Projects = pre ++ p :: post →
      (∀ q ∈ pre, q.Dir ≠ "") → p.Dir = "" →
      r.ParseAndValidate (.ok cfg) =
        .error ("project at index " ++ toString pre.length ++
          " invalid: dir key must be set and non-empty")) ∧
    ((∀ q ∈ cfg.Projects, q.Dir ≠ "") → cfg.Projects ≠ [] →
      r.ParseAndValidate (.ok cfg) = .ok cfg) := by
  refine ⟨fun hnil => ?_, fun pre p post hsplit hpre hp => ?_, fun hdirs hne => ?_⟩
  · simp [Reader.ParseAndValidate, h2, hnil]
  · have hval := validateProjectDirs_first 0 pre p post hpre hp
    rw [Nat.zero_add] at hval
    simp [Reader.ParseAndValidate, h2, hsplit, hval]
  · have hval := validateProjectDirs_none 0 cfg.Projects hdirs
    have hlen : cfg.Projects.length ≠ 0 := by
      simpa [List.length_eq_zero] using hne
    simp [Reader.ParseAndValidate, h2, hlen, hval]

/-- Witness for C4: the three validation outcomes at concrete configurations,
with the first empty-dir entry at index 1 masking the one at index 2. -/
theorem c4_validation_order_witness :
    (Reader.mk "tf" none).ParseAndValidate (.ok ⟨2, [], []⟩) =
      .error "'projects' key must exist and contain at least one element" ∧
    (Reader.mk "tf" none).ParseAndValidate
        (.ok ⟨2, [⟨"a", "w", ""⟩, ⟨"", "w", ""⟩, ⟨"", "x", ""⟩], []⟩) =
      .error ("project at index " ++ toString (1 : Nat) ++
        " invalid: dir key must be set and non-empty") ∧
    (Reader.mk "tf" none).ParseAndValidate (.ok ⟨2, [⟨"a", "w", ""⟩], []⟩) =
      .ok ⟨2, [⟨"a", "w", ""⟩], []⟩ := by
  refine ⟨?_, ?_, ?_⟩
  · exact (c4_validation_order ⟨"tf", none⟩ ⟨2, [], []⟩ rfl).1 rfl
  · exact (c4_validation_order ⟨"tf", none⟩ ⟨2, [⟨"a", "w", ""⟩, ⟨"", "w", ""⟩, ⟨"", "x", ""⟩], []⟩
      rfl).2.1 [⟨"a", "w", ""⟩] ⟨"", "w", ""⟩ [⟨"", "x", ""⟩] rfl (by decide) rfl
  · exact (c4_validation_order ⟨"tf", none⟩ ⟨2, [⟨"a", "w", ""⟩], []⟩ rfl).2.2
      (by decide) (by decide)

/-- C2: when `atlantis.yaml` does not exist at the checkout path,
`ReadConfig` returns the absent result (`.ok none`, no error) and the two
stage builders return exactly the built-in default pipelines:
`[InitStep [], PlanStep []]` for plan and `[ApplyStep []]` for apply, all
over the shared meta built from the call's inputs. -/
theorem c2_no_config_defaults (r : Reader) (fs : String → FileState)
    (log repoDir workspace relProjectPath : String)
    (extraCommentArgs : List String) (username : String)
    (h : fs (filepathJoin repoDir AtlantisYAMLFilename) = .notExist) :
    r.ReadConfig fs repoDir = .ok none ∧
    r.BuildPlanStage fs log repoDir workspace relProjectPath extraCommentArgs username =
      .ok ⟨[some (.InitStep (r.buildMeta log repoDir workspace relProjectPath
              extraCommentArgs username) []),
            some (.PlanStep (r.buildMeta log repoDir workspace relProjectPath
              extraCommentArgs username) [])]⟩ ∧
    r.BuildApplyStage fs log repoDir workspace relProjectPath extraCommentArgs username =
      .ok ⟨[some (.ApplyStep (r.buildMeta log repoDir workspace relProjectPath
              extraCommentArgs username) [])]⟩ := by
  have hread : r.ReadConfig fs repoDir = .ok none := by
    simp [Reader.ReadConfig, h]
  refine ⟨hread, ?_, ?_⟩
  · simp [Reader.BuildPlanStage, Reader.BuildStage, hread, Reader.defaultPlanSteps]
  · simp [Reader.BuildApplyStage, Reader.BuildStage, hread, Reader.defaultApplySteps]

/-- Witness for C2 on an empty filesystem. -/
theorem c2_no_config_defaults_witness :
    Reader.ReadConfig ⟨"tf", none⟩ (fun _ => .notExist) "repo" = .ok none ∧
    Reader.BuildPlanStage ⟨"tf", none⟩ (fun _ => .notExist) "log" "repo" "default" "proj" [] "u" =
      .ok ⟨[some (.InitStep (Reader.buildMeta ⟨"tf", none⟩ "log" "repo" "default" "proj" [] "u") []),
            some (.PlanStep (Reader.buildMeta ⟨"tf", none⟩ "log" "repo" "default" "proj" [] "u") [])]⟩ ∧
    Reader.BuildApplyStage ⟨"tf", none⟩ (fun _ => .notExist) "log" "repo" "default" "proj" [] "u" =
      .ok ⟨[some (.ApplyStep (Reader.buildMeta ⟨"tf", none⟩ "log" "repo" "default" "proj" [] "u") [])]⟩ :=
  c2_no_config_defaults ⟨"tf", none⟩ (fun _ => .notExist) "log" "repo" "default" "proj" [] "u" rfl

/-- C1 counterexample: a resolved workflow stage whose single entry has the
unrecognized `step_type` `"custom"` is **not** omitted from the returned
list: `BuildStage` returns `.ok [none]` — a one-entry list holding the nil
step the switch left unassigned — not the empty list the claim's silent
omission would produce. -/
theorem c1_unrecognized_step_counterexample :
    Reader.BuildStage ⟨"tf", none⟩ "plan"
        (fun _ => .contents (.ok ⟨2, [⟨"proj", "default", "w1"⟩],
          [("w1", ⟨⟨[⟨"custom", []⟩]⟩, ⟨[]⟩⟩)]⟩))
        "log" "repo" "default" "proj" [] "u" [] = .ok [none] ∧
    (Except.ok [none] : Except String (List (Option Step))) ≠ .ok [] := by
  constructor
  · rfl
  · intro h
    simp at h

/-- C1 amended: a `StepConfig` whose `step_type` is not one of `init`,
`plan`, `apply` produces a nil step entry that **is** appended to the
returned list (no error is raised), so the list has exactly one entry per
`StepConfig` entry — nil for each unrecognized one — rather than one entry
per recognized entry only. -/
theorem c1_unrecognized_step_amended (r : Reader) (fs : String → FileState)
    (stageName log repoDir workspace relProjectPath : String)
    (extraCommentArgs : List String) (username : String)
    (defaults : List (Option Step)) (cfg : RepoConfig) (p : ProjectConfig)
    (rest : List ProjectConfig) (wf : WorkflowConfig)
    (hread : r.ReadConfig fs repoDir = .ok (some cfg))
    (hproj : cfg.Projects = p :: rest)
    (hdir : p.Dir = relProjectPath) (hws : p.Workspace = workspace)
    (hwne : p.Workflow ≠ "")
    (hlookup : cfg.Workflows.lookup p.Workflow = some wf) :
    r.BuildStage stageName fs log repoDir workspace relProjectPath extraCommentArgs
        username defaults =
      .ok ((if stageName = PlanStageName then wf.Plan.Steps else wf.Apply.Steps).map
        (stepFromConfig (r.buildMeta log repoDir workspace relProjectPath
          extraCommentArgs username))) ∧
    (∀ stepsConfig : List StepConfig, ∀ m : StepMeta,
      (stepsConfig.map (stepFromConfig m)).length = stepsConfig.length) ∧
    (∀ sc : StepConfig, ∀ m : StepMeta,
      sc.StepType ≠ "init" → sc.StepType ≠ "plan" → sc.StepType ≠ "apply" →
      stepFromConfig m sc = none) := by
  refine ⟨?_, fun stepsConfig m => List.length_map _ _, fun sc m h1 h2 h3 => ?_⟩
  · simp only [Reader.BuildStage, hread, hproj, BuildStageScan, hdir, hws, and_self,
      if_true, if_neg hwne, hlookup]
  · simp [stepFromConfig, h1, h2, h3]

/-- Witness for C1 amended: the custom-step configuration from the
counterexample yields a one-entry list `[none]`. -/
theorem c1_unrecognized_step_amended_witness :
    Reader.BuildStage ⟨"tf", none⟩ "plan"
        (fun _ => .contents (.ok ⟨2, [⟨"proj", "default", "w1"⟩],
          [("w1", ⟨⟨[⟨"custom", []⟩]⟩, ⟨[]⟩⟩)]⟩))
        "log" "repo" "default" "proj" [] "u" [] =
      .ok ([⟨"custom", []⟩].map (stepFromConfig (Reader.buildMeta ⟨"tf", none⟩
        "log" "repo" "default" "proj" [] "u"))) ∧
    ([(⟨"custom", []⟩ : StepConfig)].map (stepFromConfig (Reader.buildMeta ⟨"tf", none⟩
        "log" "repo" "default" "proj" [] "u"))).length = 1 ∧
    stepFromConfig (Reader.buildMeta ⟨"tf", none⟩ "log" "repo" "default" "proj" [] "u")
      ⟨"custom", []⟩ = none := by
  have h := c1_unrecognized_step_amended ⟨"tf", none⟩
    (fun _ => .contents (.ok ⟨2, [⟨"proj", "default", "w1"⟩],
      [("w1", ⟨⟨[⟨"custom", []⟩]⟩, ⟨[]⟩⟩)]⟩))
    "plan" "log" "repo" "default" "proj" [] "u" []
    ⟨2, [⟨"proj", "default", "w1"⟩], [("w1", ⟨⟨[⟨"custom", []⟩]⟩, ⟨[]⟩⟩)]⟩
    ⟨"proj", "default", "w1"⟩ [] ⟨⟨[⟨"custom", []⟩]⟩, ⟨[]⟩⟩
    rfl rfl rfl rfl (by decide) rfl
  exact ⟨h.1, h.2.1 [⟨"custom", []⟩] _, h.2.2 ⟨"custom", []⟩ _
    (by decide) (by decide) (by decide)⟩

/-- C5: the project scan uses the first entry whose `(Dir, Workspace)`
equals the request; entries before it (non-matching) and after it never
influence the result — the scan of the whole list equals the scan of the
singleton holding the first match. -/
theorem c5_first_match_wins (r : Reader) (fs : String → FileState)
    (stageName log repoDir workspace relProjectPath : String)
    (extraCommentArgs : List String) (username : String)
    (defaults : List (Option Step)) (cfg : RepoConfig)
    (pre : List ProjectConfig) (p : ProjectConfig) (post : List ProjectConfig)
    (hread : r.ReadConfig fs repoDir = .ok (some cfg))
    (hproj : cfg.Projects = pre ++ p :: post)
    (hpre : ∀ q ∈ pre, ¬(q.Dir = relProjectPath ∧ q.Workspace = workspace))
    (hp : p.Dir = relProjectPath ∧ p.Workspace = workspace) :
    r.BuildStage stageName fs log repoDir workspace relProjectPath extraCommentArgs
        username defaults =
      BuildStageScan r stageName log repoDir workspace relProjectPath extraCommentArgs
        username defaults cfg.Workflows [p] := by
  have hskip := buildStageScan_skip r stageName log repoDir workspace relProjectPath
    extraCommentArgs username defaults cfg.Workflows pre (p :: post) hpre
  simp only [Reader.BuildStage, hread, hproj, hskip, BuildStageScan, hp, and_self, if_true]

/-- Witness for C5: a decoy project before the match and a conflicting
duplicate after it leave the result that of the first match alone (the
defaults, since its workflow is empty). -/
theorem c5_first_match_wins_witness :
    Reader.BuildStage ⟨"tf", none⟩ "plan"
        (fun _ => .contents (.ok ⟨2,
          [⟨"other", "default", "w1"⟩, ⟨"proj", "default", ""⟩, ⟨"proj", "default", "missing"⟩],
          [("w1", ⟨⟨[⟨"plan", []⟩]⟩, ⟨[]⟩⟩)]⟩))
        "log" "repo" "default" "proj" [] "u" [some (.InitStep (Reader.buildMeta ⟨"tf", none⟩
          "log" "repo" "default" "proj" [] "u") [])] =
      BuildStageScan ⟨"tf", none⟩ "plan" "log" "repo" "default" "proj" [] "u"
        [some (.InitStep (Reader.buildMeta ⟨"tf", none⟩ "log" "repo" "default" "proj" [] "u") [])]
        [("w1", ⟨⟨[⟨"plan", []⟩]⟩, ⟨[]⟩⟩)] [⟨"proj", "default", ""⟩] :=
  c5_first_match_wins ⟨"tf", none⟩
    (fun _ => .contents (.ok ⟨2,
      [⟨"other", "default", "w1"⟩, ⟨"proj", "default", ""⟩, ⟨"proj", "default", "missing"⟩],
      [("w1", ⟨⟨[⟨"plan", []⟩]⟩, ⟨[]⟩⟩)]⟩))
    "plan" "log" "repo" "default" "proj" [] "u"
    [some (.InitStep (Reader.buildMeta ⟨"tf", none⟩ "log" "repo" "default" "proj" [] "u") [])]
    ⟨2, [⟨"other", "default", "w1"⟩, ⟨"proj", "default", ""⟩, ⟨"proj", "default", "missing"⟩],
      [("w1", ⟨⟨[⟨"plan", []⟩]⟩, ⟨[]⟩⟩)]⟩
    [⟨"other", "default", "w1"⟩] ⟨"proj", "default", ""⟩ [⟨"proj", "default", "missing"⟩]
    rfl rfl (by decide) (by decide)

/-- C6: with a configuration file present (and read successfully), the two
lookup failures produce exactly their errors: no matching `(dir, workspace)`
entry yields the no-project error naming the requested values, and a first
match naming an undeclared workflow yields the no-workflow error naming that
workflow. -/
theorem c6_lookup_errors :
    (∀ (r : Reader) (fs : String → FileState)
      (stageName log repoDir workspace relProjectPath : String)
      (extraCommentArgs : List String) (username : String)
      (defaults : List (Option Step)) (cfg : RepoConfig),
      r.ReadConfig fs repoDir = .ok (some cfg) →
      (∀ q ∈ cfg.Projects, ¬(q.Dir = relProjectPath ∧ q.Workspace = workspace)) →
      r.BuildStage stageName fs log repoDir workspace relProjectPath extraCommentArgs
          username defaults =
        .error ("no project with dir " ++ quoteGo relProjectPath ++ " and workspace " ++
          quoteGo workspace ++ " defined")) ∧
    (∀ (r : Reader) (fs : String → FileState)
      (stageName log repoDir workspace relProjectPath : String)
      (extraCommentArgs : List String) (username : String)
      (defaults : List (Option Step)) (cfg : RepoConfig)
      (pre : List ProjectConfig) (p : ProjectConfig) (post : List ProjectConfig),
      r.ReadConfig fs repoDir = .ok (some cfg) →
      cfg.Projects = pre ++ p :: post →
      (∀ q ∈ pre, ¬(q.Dir = relProjectPath ∧ q.Workspace = workspace)) →
      p.Dir = relProjectPath → p.Workspace = workspace → p.Workflow ≠ "" →
      cfg.Workflows.lookup p.Workflow = none →
      r.BuildStage stageName fs log repoDir workspace relProjectPath extraCommentArgs
          username defaults =
        .error ("no workflow with key " ++ quoteGo p.Workflow ++ " defined")) := by
  constructor
  · intro r fs stageName log repoDir workspace relProjectPath extraCommentArgs username
      defaults cfg hread hnone
    have hscan := buildStageScan_no_match r stageName log repoDir workspace relProjectPath
      extraCommentArgs username defaults cfg.Workflows cfg.Projects hnone
    simp [Reader.BuildStage, hread, hscan]
  · intro r fs stageName log repoDir workspace relProjectPath extraCommentArgs username
      defaults cfg pre p post hread hproj hpre hdir hws hwne hlookup
    have hskip := buildStageScan_skip r stageName log repoDir workspace relProjectPath
      extraCommentArgs username defaults cfg.Workflows pre (p :: post) hpre
    simp [Reader.BuildStage, hread, hproj, hskip, BuildStageScan, hdir, hws, hwne, hlookup]

/-- Witness for C6: both lookup failures at concrete configurations. -/
theorem c6_lookup_errors_witness :
    Reader.BuildStage ⟨"tf", none⟩ "plan"
        (fun _ => .contents (.ok ⟨2, [⟨"other", "default", ""⟩], []⟩))
        "log" "repo" "default" "proj" [] "u" [] =
      .error ("no project with dir " ++ quoteGo "proj" ++ " and workspace " ++
        quoteGo "default" ++ " defined") ∧
    Reader.BuildStage ⟨"tf", none⟩ "plan"
        (fun _ => .contents (.ok ⟨2, [⟨"proj", "default", "missing"⟩], []⟩))
        "log" "repo" "default" "proj" [] "u" [] =
      .error ("no workflow with key " ++ quoteGo "missing" ++ " defined") := by
  constructor
  · exact c6_lookup_errors.1 ⟨"tf", none⟩
      (fun _ => .contents (.ok ⟨2, [⟨"other", "default", ""⟩], []⟩))
      "plan" "log" "repo" "default" "proj" [] "u" []
      ⟨2, [⟨"other", "default", ""⟩], []⟩ rfl (by decide)
  · exact c6_lookup_errors.2 ⟨"tf", none⟩
      (fun _ => .contents (.ok ⟨2, [⟨"proj", "default", "missing"⟩], []⟩))
      "plan" "log" "repo" "default" "proj" [] "u" []
      ⟨2, [⟨"proj", "default", "missing"⟩], []⟩
      [] ⟨"proj", "default", "missing"⟩ [] rfl rfl (by decide) rfl rfl
      (by decide) rfl

/-- C7: a first-matching project naming an existing workflow expands the
requested stage's step list in declared order through the per-entry switch,
each recognized tag yielding its variant with that entry's extra args, and
every produced step carries the one `StepMeta` built from the call's inputs
(workspace, joined absolute path, relative path, default tool version,
executor reference, extra comment args, username). -/
theorem c7_workflow_expansion (r : Reader) (fs : String → FileState)
    (stageName log repoDir workspace relProjectPath : String)
    (extraCommentArgs : List String) (username : String)
    (defaults : List (Option Step)) (cfg : RepoConfig)
    (pre : List ProjectConfig) (p : ProjectConfig) (post : List ProjectConfig)
    (wf : WorkflowConfig)
    (hread : r.ReadConfig fs repoDir = .ok (some cfg))
    (hproj : cfg.Projects = pre ++ p :: post)
    (hpre : ∀ q ∈ pre, ¬(q.Dir = relProjectPath ∧ q.Workspace = workspace))
    (hdir : p.Dir = relProjectPath) (hws : p.Workspace = workspace)
    (hwne : p.Workflow ≠ "")
    (hlookup : cfg.Workflows.lookup p.Workflow = some wf) :
    r.BuildStage stageName fs log repoDir workspace relProjectPath extraCommentArgs
        username defaults =
      .ok ((if stageName = PlanStageName then wf.Plan.Steps else wf.Apply.Steps).map
        (stepFromConfig (r.buildMeta log repoDir workspace relProjectPath
          extraCommentArgs username))) ∧
    (∀ ea m, stepFromConfig m ⟨"init", ea⟩ = some (.InitStep m ea)) ∧
    (∀ ea m, stepFromConfig m ⟨"plan", ea⟩ = some (.PlanStep m ea)) ∧
    (∀ ea m, stepFromConfig m ⟨"apply", ea⟩ = some (.ApplyStep m ea)) ∧
    (r.buildMeta log repoDir workspace relProjectPath extraCommentArgs username =
      ⟨log, workspace, filepathJoin repoDir relProjectPath, relProjectPath,
        r.DefaultTFVersion, r.TerraformExecutor, extraCommentArgs, username⟩) ∧
    (∀ s : Step,
      some s ∈ (if stageName = PlanStageName then wf.Plan.Steps else wf.Apply.Steps).map
        (stepFromConfig (r.buildMeta log repoDir workspace relProjectPath
          extraCommentArgs username)) →
      s.meta = r.buildMeta log repoDir workspace relProjectPath extraCommentArgs username) := by
  refine ⟨?_, fun ea m => rfl, fun ea m => rfl, fun ea m => rfl, rfl, fun s hs => ?_⟩
  · have hskip := buildStageScan_skip r stageName log repoDir workspace relProjectPath
      extraCommentArgs username defaults cfg.Workflows pre (p :: post) hpre
    simp [Reader.BuildStage, hread, hproj, hskip, BuildStageScan, hdir, hws, hwne, hlookup]
  · obtain ⟨sc, hmem, hsc⟩ := List.mem_map.mp hs
    exact stepFromConfig_meta _ sc s hsc

/-- Witness for C7: the spec's own example — workflow `custom1` with
`plan.steps = [init(-x), plan]` resolves to an Init step with `["-x"]` and a
Plan step with no extra args over the shared meta. -/
theorem c7_workflow_expansion_witness :
    Reader.BuildStage ⟨"tf", none⟩ "plan"
        (fun _ => .contents (.ok ⟨2, [⟨"proj", "default", "custom1"⟩],
          [("custom1", ⟨⟨[⟨"init", ["-x"]⟩, ⟨"plan", []⟩]⟩, ⟨[⟨"apply", []⟩]⟩⟩)]⟩))
        "log" "repo" "default" "proj" [] "u" [] =
      .ok ((if "plan" = PlanStageName then [⟨"init", ["-x"]⟩, ⟨"plan", []⟩]
          else ([⟨"apply", []⟩] : List StepConfig)).map
        (stepFromConfig (Reader.buildMeta ⟨"tf", none⟩ "log" "repo" "default" "proj" [] "u"))) ∧
    Reader.buildMeta ⟨"tf", none⟩ "log" "repo" "default" "proj" [] "u" =
      ⟨"log", "default", filepathJoin "repo" "proj", "proj", none, "tf", [], "u"⟩ := by
  have h := c7_workflow_expansion ⟨"tf", none⟩
    (fun _ => .contents (.ok ⟨2, [⟨"proj", "default", "custom1"⟩],
      [("custom1", ⟨⟨[⟨"init", ["-x"]⟩, ⟨"plan", []⟩]⟩, ⟨[⟨"apply", []⟩]⟩⟩)]⟩))
    "plan" "log" "repo" "default" "proj" [] "u" []
    ⟨2, [⟨"proj", "default", "custom1"⟩],
      [("custom1", ⟨⟨[⟨"init", ["-x"]⟩, ⟨"plan", []⟩]⟩, ⟨[⟨"apply", []⟩]⟩⟩)]⟩
    [] ⟨"proj", "default", "custom1"⟩ [] ⟨⟨[⟨"init", ["-x"]⟩, ⟨"plan", []⟩]⟩, ⟨[⟨"apply", []⟩]⟩⟩
    rfl rfl (by decide) rfl rfl (by decide) rfl
  exact ⟨h.1, h.2.2.2.2.1⟩

/-- C8: a first-matching project with an empty `workflow` field makes
`BuildStage` return the supplied defaults without failing — even when the
configuration declares no workflows at all — and `BuildPlanStage` thus
returns the default plan pipeline `[Init, Plan]`. -/
theorem c8_empty_workflow_defaults (r : Reader) (fs : String → FileState)
    (stageName log repoDir workspace relProjectPath : String)
    (extraCommentArgs : List String) (username : String)
    (defaults : List (Option Step)) (cfg : RepoConfig)
    (pre : List ProjectConfig) (p : ProjectConfig) (post : List ProjectConfig)
    (hread : r.ReadConfig fs repoDir = .ok (some cfg))
    (hproj : cfg.Projects = pre ++ p :: post)
    (hpre : ∀ q ∈ pre, ¬(q.Dir = relProjectPath ∧ q.Workspace = workspace))
    (hdir : p.Dir = relProjectPath) (hws : p.Workspace = workspace)
    (hw : p.Workflow = "") :
    r.BuildStage stageName fs log repoDir workspace relProjectPath extraCommentArgs
        username defaults = .ok defaults ∧
    r.BuildPlanStage fs log repoDir workspace relProjectPath extraCommentArgs username =
      .ok ⟨[some (.InitStep (r.buildMeta log repoDir workspace relProjectPath
              extraCommentArgs username) []),
            some (.PlanStep (r.buildMeta log repoDir workspace relProjectPath
              extraCommentArgs username) [])]⟩ := by
  have hmain : ∀ ds : List (Option Step),
      r.BuildStage stageName fs log repoDir workspace relProjectPath extraCommentArgs
        username ds = .ok ds := by
    intro ds
    have hskip := buildStageScan_skip r stageName log repoDir workspace relProjectPath
      extraCommentArgs username ds cfg.Workflows pre (p :: post) hpre
    simp [Reader.BuildStage, hread, hproj, hskip, BuildStageScan, hdir, hws, hw]
  have hplan : ∀ ds : List (Option Step),
      r.BuildStage PlanStageName fs log repoDir workspace relProjectPath extraCommentArgs
        username ds = .ok ds := by
    intro ds
    have hskip := buildStageScan_skip r PlanStageName log repoDir workspace relProjectPath
      extraCommentArgs username ds cfg.Workflows pre (p :: post) hpre
    simp [Reader.BuildStage, hread, hproj, hskip, BuildStageScan, hdir, hws, hw]
  refine ⟨hmain defaults, ?_⟩
  simp [Reader.BuildPlanStage, hplan, Reader.defaultPlanSteps]

/-- Witness for C8: a matched project with empty workflow in a configuration
declaring no workflows resolves the plan stage to the default pipeline. -/
theorem c8_empty_workflow_defaults_witness :
    Reader.BuildStage ⟨"tf", none⟩ "plan"
        (fun _ => .contents (.ok ⟨2, [⟨"proj", "default", ""⟩], []⟩))
        "log" "repo" "default" "proj" [] "u" [] = .ok [] ∧
    Reader.BuildPlanStage ⟨"tf", none⟩
        (fun _ => .contents (.ok ⟨2, [⟨"proj", "default", ""⟩], []⟩))
        "log" "repo" "default" "proj" [] "u" =
      .ok ⟨[some (.InitStep (Reader.buildMeta ⟨"tf", none⟩ "log" "repo" "default" "proj" [] "u") []),
            some (.PlanStep (Reader.buildMeta ⟨"tf", none⟩ "log" "repo" "default" "proj" [] "u") [])]⟩ :=
  c8_empty_workflow_defaults ⟨"tf", none⟩
    (fun _ => .contents (.ok ⟨2, [⟨"proj", "default", ""⟩], []⟩))
    "plan" "log" "repo" "default" "proj" [] "u" []
    ⟨2, [⟨"proj", "default", ""⟩], []⟩ [] ⟨"proj", "default", ""⟩ []
    rfl rfl (by decide) rfl rfl rfl

/-- C9: `BuildStage` is deterministic and free of hidden state — its result
depends only on the call's inputs and the contents of the configuration file
path it reads: two calls with identical inputs whose filesystems agree at
that one path return structurally identical results. -/
theorem c9_deterministic (r : Reader)
    (stageName log repoDir workspace relProjectPath : String)
    (extraCommentArgs : List String) (username : String)
    (defaults : List (Option Step)) (fs1 fs2 : String → FileState)
    (h : fs1 (filepathJoin repoDir AtlantisYAMLFilename) =
      fs2 (filepathJoin repoDir AtlantisYAMLFilename)) :
    r.BuildStage stageName fs1 log repoDir workspace relProjectPath extraCommentArgs
        username defaults =
      r.BuildStage stageName fs2 log repoDir workspace relProjectPath extraCommentArgs
        username defaults := by
  simp only [Reader.BuildStage, Reader.ReadConfig, h]

/-- Witness for C9: two different filesystems agreeing at the configuration
path give the same result. -/
theorem c9_deterministic_witness :
    Reader.BuildStage ⟨"tf", none⟩ "plan" (fun _ => .notExist)
        "log" "repo" "default" "proj" [] "u" [] =
      Reader.BuildStage ⟨"tf", none⟩ "plan"
        (fun path => if path = "repo/atlantis.yaml" then .notExist else .readErr "boom")
        "log" "repo" "default" "proj" [] "u" [] :=
  c9_deterministic ⟨"tf", none⟩ "plan" "log" "repo" "default" "proj" [] "u" []
    (fun _ => .notExist)
    (fun path => if path = "repo/atlantis.yaml" then .notExist else .readErr "boom")
    (by rfl)

/-- C10: with a matched project naming a defined workflow, any stage name
other than exactly `"plan"` — arbitrary strings included — selects the
workflow's apply stage steps; there is no error branch for an unrecognized
stage name. -/
theorem c10_nonplan_stage_selects_apply (r : Reader) (fs : String → FileState)
    (stageName log repoDir workspace relProjectPath : String)
    (extraCommentArgs : List String) (username : String)
    (defaults : List (Option Step)) (cfg : RepoConfig)
    (pre : List ProjectConfig) (p : ProjectConfig) (post : List ProjectConfig)
    (wf : WorkflowConfig)
    (hread : r.ReadConfig fs repoDir = .ok (some cfg))
    (hproj : cfg.Projects = pre ++ p :: post)
    (hpre : ∀ q ∈ pre, ¬(q.Dir = relProjectPath ∧ q.Workspace = workspace))
    (hdir : p.Dir = relProjectPath) (hws : p.Workspace = workspace)
    (hwne : p.Workflow ≠ "")
    (hlookup : cfg.Workflows.lookup p.Workflow = some wf)
    (hstage : stageName ≠ PlanStageName) :
    r.BuildStage stageName fs log repoDir workspace relProjectPath extraCommentArgs
        username defaults =
      .ok (wf.Apply.Steps.map (stepFromConfig (r.buildMeta log repoDir workspace
        relProjectPath extraCommentArgs username))) := by
  have hskip := buildStageScan_skip r stageName log repoDir workspace relProjectPath
    extraCommentArgs username defaults cfg.Workflows pre (p :: post) hpre
  simp [Reader.BuildStage, hread, hproj, hskip, BuildStageScan, hdir, hws, hwne, hlookup,
    hstage]

/-- Witness for C10: the arbitrary stage name `"frobnicate"` selects the
apply steps of the resolved workflow. -/
theorem c10_nonplan_stage_selects_apply_witness :
    Reader.BuildStage ⟨"tf", none⟩ "frobnicate"
        (fun _ => .contents (.ok ⟨2, [⟨"proj", "default", "w1"⟩],
          [("w1", ⟨⟨[⟨"plan", []⟩]⟩, ⟨[⟨"apply", ["-y"]⟩]⟩⟩)]⟩))
        "log" "repo" "default" "proj" [] "u" [] =
      .ok ([⟨"apply", ["-y"]⟩].map (stepFromConfig (Reader.buildMeta ⟨"tf", none⟩
        "log" "repo" "default" "proj" [] "u"))) :=
  c10_nonplan_stage_selects_apply ⟨"tf", none⟩
    (fun _ => .contents (.ok ⟨2, [⟨"proj", "default", "w1"⟩],
      [("w1", ⟨⟨[⟨"plan", []⟩]⟩, ⟨[⟨"apply", ["-y"]⟩]⟩⟩)]⟩))
    "frobnicate" "log" "repo" "default" "proj" [] "u" []
    ⟨2, [⟨"proj", "default", "w1"⟩], [("w1", ⟨⟨[⟨"plan", []⟩]⟩, ⟨[⟨"apply", ["-y"]⟩]⟩⟩)]⟩
    [] ⟨"proj", "default", "w1"⟩ [] ⟨⟨[⟨"plan", []⟩]⟩, ⟨[⟨"apply", ["-y"]⟩]⟩⟩
    rfl rfl (by decide) rfl rfl (by decide) rfl (by decide)

end RepoconfigSpec
